import Mathlib

/-!
Verification of the NupatAI backend (FastAPI + SQLAlchemy chat service).

Shallow embedding of the data model (`app/db/models.py`), the services
(`app/services/chat_service.py`, `app/services/message_service.py`,
`app/services/ai_service.py`, `app/services/auth_service.py`), the API
dependencies (`app/api/deps.py`) and the route-level pagination arithmetic
(`app/api/v1/chats.py`, `app/api/v1/messages.py`).

Modelling conventions:
- UUID primary keys are modelled as natural numbers drawn from a global
  monotone counter `Db.clock`; `datetime.utcnow` timestamps are modelled by
  the same counter, so rows created later carry strictly larger
  `created_at` values.
- A SQLAlchemy session plus its commit/rollback discipline is modelled by
  functions from a `Db` value to a new `Db` value: an aborted transaction
  returns the original `Db` unchanged (the code never commits before the
  point of failure, and the session is discarded on error).
- The Groq client is an external collaborator; it is modelled as a function
  argument `provider : List GroqMessage -> Option String` where `none`
  stands for a raised exception or a missing `message.content` field, and
  `some t` for a completion with content `t`.
- Python string operations (`str.strip`, `str.split`, slicing, `or`
  truthiness) are re-implemented on `List Char` with Python semantics,
  because the corresponding Lean `String` functions do not share them.
-/

namespace NupatAI

/-! ## Python string primitives -/

/-- The ASCII whitespace characters stripped by Python `str.strip()` and
used as separators by `str.split()`. -/
def isPySpace (c : Char) : Bool :=
  c = ' ' || c = '\t' || c = '\n' || c = '\r' || c = '\x0b' || c = '\x0c'

/-- The characters stripped by `str.strip('"\'')` in
`AIService.generate_chat_title`. -/
def isQuoteChar (c : Char) : Bool :=
  c = '"' || c = '\''

/-- Python `str.strip(chars)` on a character list: remove characters
satisfying `bad` from both ends. -/
def stripCharsList (bad : Char → Bool) (l : List Char) : List Char :=
  ((l.dropWhile bad).reverse.dropWhile bad).reverse

/-- Python `s.strip()` (whitespace strip). -/
def pyStrip (s : String) : String :=
  String.mk (stripCharsList isPySpace s.toList)

/-- Python `s.strip('"\'')`. -/
def stripQuotes (s : String) : String :=
  String.mk (stripCharsList isQuoteChar s.toList)

/-- Worker for `splitWsChars`: `acc` holds the reversed current word. -/
def splitWsAux : List Char → List Char → List (List Char)
  | acc, [] =>
    match acc with
    | [] => []
    | _ => [acc.reverse]
  | acc, c :: cs =>
    if isPySpace c then
      match acc with
      | [] => splitWsAux [] cs
      | _ => acc.reverse :: splitWsAux [] cs
    else splitWsAux (c :: acc) cs

/-- Python `s.split()` on a character list: maximal runs of
non-whitespace characters; empty runs are discarded. -/
def splitWsChars (l : List Char) : List (List Char) :=
  splitWsAux [] l

/-- Python `s.split()`. -/
def pySplit (s : String) : List String :=
  (splitWsChars s.toList).map String.mk

/-- Python `" ".join(words)`. -/
def joinSpace : List String → String
  | [] => ""
  | [w] => w
  | w :: ws => w ++ " " ++ joinSpace ws

/-- Python `or` on an optional string: falls through on `None` and on the
empty string (both are falsy). -/
def pyOrStr (t : Option String) (d : String) : String :=
  match t with
  | none => d
  | some s => if s = "" then d else s

/-! ## Data model (`app/db/models.py`) -/

/-- `MessageRole` enum: `USER = "user"`, `ASSISTANT = "assistant"`. -/
inductive MessageRole where
  | user
  | assistant
deriving DecidableEq

/-- The `users` table.  The hashed password and the profile timestamps play
no role in any claim and are omitted. -/
structure User where
  id : Nat
  email : String
deriving DecidableEq

/-- The `chats` table. -/
structure Chat where
  id : Nat
  user_id : Nat
  title : String
  message_count : Nat
  created_at : Nat
  updated_at : Nat
deriving DecidableEq

/-- The `messages` table.  The random UUID primary key is omitted; rows are
identified by their position and timestamp. -/
structure Message where
  chat_id : Nat
  role : MessageRole
  content : String
  created_at : Nat
deriving DecidableEq

/-- The persistent store, together with the monotone counter used to mint
identifiers and `utcnow` timestamps. -/
structure Db where
  users : List User
  chats : List Chat
  messages : List Message
  clock : Nat

/-- Well-formedness: rows were inserted with timestamps taken from the
monotone clock, so the `messages` table is listed in nondecreasing
`created_at` order and every timestamp is below the clock. -/
def Db.Wf (db : Db) : Prop :=
  db.messages.Pairwise (fun a b => a.created_at ≤ b.created_at) ∧
    ∀ m ∈ db.messages, m.created_at < db.clock

instance (db : Db) : Decidable db.Wf := by
  unfold Db.Wf; infer_instance

/-- `fastapi.HTTPException` (also covering the service errors, which are
HTTP exceptions with status 500). -/
structure HTTPError where
  status : Nat
  detail : String
deriving DecidableEq

/-! ## Query-level sorting (`order_by`)

SQL `ORDER BY` is modelled by insertion sort with a decidable relation. -/

def insertLe (r : α → α → Prop) [DecidableRel r] (x : α) : List α → List α
  | [] => [x]
  | y :: ys => if r x y then x :: y :: ys else y :: insertLe r x ys

def sortLe (r : α → α → Prop) [DecidableRel r] : List α → List α
  | [] => []
  | x :: xs => insertLe r x (sortLe r xs)

theorem insertLe_of_forall_le (r : α → α → Prop) [DecidableRel r] (x : α)
    (l : List α) (h : ∀ y ∈ l, r x y) : insertLe r x l = x :: l := by
  cases l with
  | nil => rfl
  | cons y ys =>
    simp only [insertLe, if_pos (h y (List.mem_cons_self _ _))]

/-- On a list already sorted for `r`, the sort is the identity. -/
theorem sortLe_eq_self (r : α → α → Prop) [DecidableRel r]
    (l : List α) (h : l.Pairwise r) : sortLe r l = l := by
  induction l with
  | nil => rfl
  | cons x xs ih =>
    rcases List.pairwise_cons.mp h with ⟨hx, hxs⟩
    simp only [sortLe, ih hxs, insertLe_of_forall_le r x xs hx]

theorem insertLe_perm (r : α → α → Prop) [DecidableRel r] (x : α)
    (l : List α) : List.Perm (insertLe r x l) (x :: l) := by
  induction l with
  | nil => exact List.Perm.refl _
  | cons y ys ih =>
    by_cases h : r x y
    · simp [insertLe, h]
    · simp only [insertLe, if_neg h]
      exact (ih.cons y).trans (List.Perm.swap x y ys)

/-- The sort is a permutation of its input. -/
theorem sortLe_perm (r : α → α → Prop) [DecidableRel r] (l : List α) :
    List.Perm (sortLe r l) l := by
  induction l with
  | nil => exact List.Perm.refl _
  | cons x xs ih =>
    exact (insertLe_perm r x (sortLe r xs)).trans (ih.cons x)

theorem insertLe_pairwise (r : α → α → Prop) [DecidableRel r]
    (htot : ∀ a b, r a b ∨ r b a)
    (htrans : ∀ a b c, r a b → r b c → r a c) (x : α) (l : List α)
    (h : l.Pairwise r) : (insertLe r x l).Pairwise r := by
  induction l with
  | nil => simp [insertLe]
  | cons y ys ih =>
    rcases List.pairwise_cons.mp h with ⟨hy, hys⟩
    by_cases hxy : r x y
    · simp only [insertLe, if_pos hxy]
      refine List.pairwise_cons.mpr ⟨?_, h⟩
      intro z hz
      rcases List.mem_cons.mp hz with hz | hz
      · exact hz ▸ hxy
      · exact htrans x y z hxy (hy z hz)
    · simp only [insertLe, if_neg hxy]
      refine List.pairwise_cons.mpr ⟨?_, ih hys⟩
      intro z hz
      rcases List.mem_cons.mp ((insertLe_perm r x ys).mem_iff.mp hz) with hz | hz
      · rw [hz]
        exact (htot x y).resolve_left hxy
      · exact hy z hz

/-- The sort output is pairwise sorted, for a total transitive relation. -/
theorem sortLe_pairwise (r : α → α → Prop) [DecidableRel r]
    (htot : ∀ a b, r a b ∨ r b a)
    (htrans : ∀ a b c, r a b → r b c → r a c) (l : List α) :
    (sortLe r l).Pairwise r := by
  induction l with
  | nil => exact List.Pairwise.nil
  | cons x xs ih => exact insertLe_pairwise r htot htrans x (sortLe r xs) ih

/-! ## Prompts (`app/core/prompts.py`) -/

/-- `NUPAT_AI_SYSTEM_PROMPT` (abridged: the constant is a fixed block of
persona text whose exact content is irrelevant to every claim; only its
fixedness matters). -/
def NUPAT_AI_SYSTEM_PROMPT : String :=
  "You are NupatAI, an intelligent AI assistant created by Nupat Technologies."

/-- `get_system_prompt()`. -/
def get_system_prompt : String := NUPAT_AI_SYSTEM_PROMPT

/-- `CHAT_TITLE_GENERATION_PROMPT.format(message=...)` as realised by
`get_title_generation_prompt` (abridged around the interpolation point). -/
def get_title_generation_prompt (user_message : String) : String :=
  "Generate a concise, descriptive title (3-6 words maximum) for a chat conversation based on the user's first message.\n\nUser's first message: "
    ++ user_message ++ "\n\nTitle:"

/-! ## AI service (`app/services/ai_service.py`) -/

/-- One entry of the `messages` list handed to
`client.chat.completions.create`. -/
structure GroqMessage where
  role : String
  content : String
deriving DecidableEq

/-- The slice `chat_history[-10:] if len(chat_history) > 10 else
chat_history`. -/
def recentOf (chat_history : List Message) : List Message :=
  if chat_history.length > 10 then
    chat_history.drop (chat_history.length - 10)
  else chat_history

/-- The per-entry role mapping
`"user" if msg.role == "user" else "assistant"` applied to a history
message. -/
def toGroq (m : Message) : GroqMessage :=
  ⟨if m.role = MessageRole.user then "user" else "assistant", m.content⟩

/-- The message list built by `AIService.generate_response` before the Groq
call: the fixed system instruction, then (when the history is nonempty) the
last 10 history entries mapped role-for-role, then the new user message. -/
def buildGroqMessages (user_message : String) (chat_history : List Message) :
    List GroqMessage :=
  let messages : List GroqMessage := [⟨"system", get_system_prompt⟩]
  let messages :=
    if chat_history.isEmpty then messages
    else messages ++ (recentOf chat_history).map toGroq
  messages ++ [⟨"user", user_message⟩]

/-- `AIService.generate_response`.  The Groq client is the `provider`
argument; `none` models an exception or a missing content field (both end
in the same `except` branch), `some t` a completion with content `t`.  A
falsy (empty) content raises, and every failure surfaces as an
`HTTPException` with status 500; otherwise the stripped text is returned.
The two failure paths carry different detail strings in the source; both
are modelled by the single detail below since every claim only inspects
the status. -/
def generate_response (provider : List GroqMessage → Option String)
    (user_message : String) (chat_history : List Message) :
    Except HTTPError String :=
  match provider (buildGroqMessages user_message chat_history) with
  | none => .error ⟨500, "AI service error"⟩
  | some response_text =>
    if response_text = "" then .error ⟨500, "AI service error"⟩
    else .ok (pyStrip response_text)

/-- `AIService.generate_chat_title`.  `titleCompletion` is the Groq
completion content for the title prompt (`none` models an exception, which
the source catches and turns into the default title). -/
def generate_chat_title (titleCompletion : Option String) : String :=
  match titleCompletion with
  | none => "New Chat"
  | some raw =>
    let title := pyStrip raw
    if title = "" then "New Chat"
    else
      let title := stripQuotes title
      let words := pySplit title
      let title := if words.length > 6 then joinSpace (words.take 6) else title
      let title :=
        if title.length > 200 then String.mk (title.toList.take 197) ++ "..."
        else title
      title

/-! ## Chat service (`app/services/chat_service.py`) -/

/-- `ChatService.create_chat`.  `title?` is `ChatCreate.title` after
pydantic validation: an absent field arrives as the schema default
`some "New Chat"`, an explicit JSON `null` as `none`.  The source computes
`chat_data.title or "New Chat"`. -/
def create_chat (db : Db) (user : User) (title? : Option String) :
    Db × Chat :=
  let new_chat : Chat :=
    { id := db.clock
      user_id := user.id
      title := pyOrStr title? "New Chat"
      message_count := 0
      created_at := db.clock
      updated_at := db.clock }
  ({ db with chats := db.chats ++ [new_chat], clock := db.clock + 1 }, new_chat)

/-- The `Chat` rows of one user, ordered by `updated_at` descending
(`ChatService.get_user_chats` query). -/
def userChatsDesc (db : Db) (user_id : Nat) : List Chat :=
  sortLe (fun a b => b.updated_at ≤ a.updated_at)
    (db.chats.filter (fun c => c.user_id = user_id))

/-- `OFFSET`/`LIMIT` pagination of a query result. -/
def paginate (l : List α) (page page_size : Nat) : List α :=
  (l.drop ((page - 1) * page_size)).take page_size

/-- `ChatService.get_user_chats`: total count plus one page of the
recency-ordered chat list. -/
def get_user_chats (db : Db) (user : User) (page page_size : Nat) :
    List Chat × Nat :=
  let total := (db.chats.filter (fun c => c.user_id = user.id)).length
  (paginate (userChatsDesc db user.id) page page_size, total)

/-- `ChatService.get_chat_by_id`: 404 when no chat has the id, 403 when the
first matching chat belongs to another user, otherwise the chat. -/
def get_chat_by_id (db : Db) (chat_id : Nat) (user : User) :
    Except HTTPError Chat :=
  match db.chats.find? (fun c => c.id = chat_id) with
  | none => .error ⟨404, "Chat not found"⟩
  | some chat =>
    if chat.user_id ≠ user.id then
      .error ⟨403, "Not authorized to access this chat"⟩
    else .ok chat

/-- `ChatService.update_chat_title` (ownership check, then title update and
commit; `updated_at` is refreshed by the ORM `onupdate` hook). -/
def update_chat_title (db : Db) (chat_id : Nat) (user : User)
    (new_title : String) : Db × Except HTTPError Chat :=
  match get_chat_by_id db chat_id user with
  | .error e => (db, .error e)
  | .ok chat =>
    let updated := { chat with title := new_title, updated_at := db.clock }
    ({ db with
        chats := db.chats.map (fun c => if c.id = chat.id then updated else c)
        clock := db.clock + 1 },
      .ok updated)

/-- `ChatService.delete_chat` (ownership check, then delete; the
`ondelete="CASCADE"` relationship removes the chat's messages). -/
def delete_chat (db : Db) (chat_id : Nat) (user : User) :
    Db × Except HTTPError Unit :=
  match get_chat_by_id db chat_id user with
  | .error e => (db, .error e)
  | .ok chat =>
    ({ db with
        chats := db.chats.filter (fun c => ¬ c.id = chat.id)
        messages := db.messages.filter (fun m => ¬ m.chat_id = chat.id) },
      .ok ())

/-! ## Message service (`app/services/message_service.py`) -/

/-- The `Message` rows of one chat ordered by `created_at` ascending (the
query shared by `get_chat_messages` and `create_message_and_respond`). -/
def chatMessagesAsc (db : Db) (chat_id : Nat) : List Message :=
  sortLe (fun a b => a.created_at ≤ b.created_at)
    (db.messages.filter (fun m => m.chat_id = chat_id))

/-- `MessageService.get_chat_messages`: total count plus one page in
ascending creation order. -/
def get_chat_messages (db : Db) (chat : Chat) (page page_size : Nat) :
    List Message × Nat :=
  let total := (db.messages.filter (fun m => m.chat_id = chat.id)).length
  (paginate (chatMessagesAsc db chat.id) page page_size, total)

/-- `MessageService.create_message_and_respond`: load the history, stage
the user message, call the provider, stage the assistant message, set the
denormalised count, auto-title on the first message, and commit everything
at once.  On a provider failure nothing is committed and the original `Db`
is returned with the error. -/
def create_message_and_respond (db : Db) (chat : Chat) (content : String)
    (provider : List GroqMessage → Option String)
    (titleProvider : String → Option String) :
    Db × Except HTTPError (Message × Message × Bool) :=
  let existing_messages := chatMessagesAsc db chat.id
  let is_first_message := existing_messages.length = 0
  let user_message : Message :=
    { chat_id := chat.id, role := .user, content := content,
      created_at := db.clock }
  match generate_response provider content existing_messages with
  | .error e => (db, .error e)
  | .ok ai_response_text =>
    let assistant_message : Message :=
      { chat_id := chat.id, role := .assistant, content := ai_response_text,
        created_at := db.clock + 1 }
    let titlePair :=
      if is_first_message then
        let new_title := generate_chat_title (titleProvider content)
        if new_title ≠ "" ∧ new_title ≠ "New Chat" then (new_title, true)
        else (chat.title, false)
      else (chat.title, false)
    let db' : Db :=
      { users := db.users
        chats := db.chats.map (fun c =>
          if c.id = chat.id then
            { c with
                title := titlePair.1
                message_count := existing_messages.length + 2
                updated_at := db.clock + 1 }
          else c)
        messages := db.messages ++ [user_message, assistant_message]
        clock := db.clock + 2 }
    (db', .ok (user_message, assistant_message, titlePair.2))

/-! ## Auth service and API dependencies
    (`app/services/auth_service.py`, `app/api/deps.py`) -/

/-- `AuthService.get_user_by_id`: 404 when no user has the id. -/
def get_user_by_id (db : Db) (user_id : Nat) : Except HTTPError User :=
  match db.users.find? (fun u => u.id = user_id) with
  | none => .error ⟨404, "User not found"⟩
  | some user => .ok user

/-- The decoded JWT payload as read by `get_current_user`
(`payload.get("sub")`). -/
structure TokenPayload where
  sub : Option String

/-- Modelled from the spec: `uuid.UUID(user_id_str)` in
`app/api/deps.py` parses the subject claim and raises `ValueError` on a
malformed identifier.  Identifiers are modelled as naturals, so a
well-formed identifier is a nonempty string of digits. -/
def parseUserId (s : String) : Option Nat :=
  if s.toList ≠ [] ∧ ∀ c ∈ s.toList, c.isDigit then
    some (s.toList.foldl (fun n c => n * 10 + (c.toNat - 48)) 0)
  else none

/-- `get_current_user` (`app/api/deps.py`).  Modelled from the spec for
the part outside `src/`: `decode_access_token` (`app/core/security.py`,
not in the sources) returns the token payload, or `None` when the token is
malformed, has an invalid signature, or is expired; its result is taken
here as the `payload` argument.  The rest follows the source: a missing
payload, a missing subject claim, or an unparsable subject each yield 401,
and the user is then looked up via `AuthService.get_user_by_id`. -/
def get_current_user (db : Db) (payload : Option TokenPayload) :
    Except HTTPError User :=
  match payload with
  | none => .error ⟨401, "Could not validate credentials"⟩
  | some p =>
    match p.sub with
    | none => .error ⟨401, "Invalid token payload"⟩
    | some user_id_str =>
      match parseUserId user_id_str with
      | none => .error ⟨401, "Invalid user ID in token"⟩
      | some user_id => get_user_by_id db user_id

/-! ## Route level (`app/api/v1/chats.py`, `app/api/v1/messages.py`) -/

/-- The `total_pages` arithmetic shared by both list routes:
`math.ceil(total / page_size) if total > 0 else 0`, with Python's true
division and ceiling modelled exactly over the rationals. -/
def totalPagesOf (total page_size : Nat) : Nat :=
  if 0 < total then ⌈(total : ℚ) / (page_size : ℚ)⌉₊ else 0

/-- `ChatListResponse`. -/
structure ChatListResponse where
  chats : List Chat
  total : Nat
  page : Nat
  page_size : Nat
  total_pages : Nat

/-- `MessageListResponse`. -/
structure MessageListResponse where
  messages : List Message
  total : Nat
  page : Nat
  page_size : Nat
  total_pages : Nat

/-- `GET /chats` (`get_user_chats` route). -/
def get_user_chats_route (db : Db) (user : User) (page page_size : Nat) :
    ChatListResponse :=
  let (chats, total) := get_user_chats db user page page_size
  { chats := chats, total := total, page := page, page_size := page_size
    total_pages := totalPagesOf total page_size }

/-- `GET /chats/{id}` (`get_chat_with_messages` route): the chat plus its
`messages` relationship, which is declared with
`order_by="Message.created_at"`. -/
def get_chat_with_messages (db : Db) (chat_id : Nat) (user : User) :
    Except HTTPError (Chat × List Message) :=
  match get_chat_by_id db chat_id user with
  | .error e => .error e
  | .ok chat => .ok (chat, chatMessagesAsc db chat.id)

/-- `POST /chats/{id}/messages` (`send_message` route): ownership check,
then `create_message_and_respond`. -/
def send_message (db : Db) (chat_id : Nat) (user : User) (content : String)
    (provider : List GroqMessage → Option String)
    (titleProvider : String → Option String) :
    Db × Except HTTPError (Message × Message × Bool) :=
  match get_chat_by_id db chat_id user with
  | .error e => (db, .error e)
  | .ok chat => create_message_and_respond db chat content provider titleProvider

/-- `GET /chats/{id}/messages` (`get_chat_messages` route). -/
def get_chat_messages_route (db : Db) (chat_id : Nat) (user : User)
    (page page_size : Nat) : Except HTTPError MessageListResponse :=
  match get_chat_by_id db chat_id user with
  | .error e => .error e
  | .ok chat =>
    let (messages, total) := get_chat_messages db chat page page_size
    .ok { messages := messages, total := total, page := page,
          page_size := page_size,
          total_pages := totalPagesOf total page_size }

/-! ## Helper lemmas: queries on a well-formed store -/

theorem chatMessagesAsc_eq_filter (db : Db) (chat_id : Nat) (hwf : db.Wf) :
    chatMessagesAsc db chat_id =
      db.messages.filter (fun m => m.chat_id = chat_id) := by
  unfold chatMessagesAsc
  exact sortLe_eq_self _ _ (hwf.1.sublist (List.filter_sublist _))

theorem chatMessagesAsc_pairwise (db : Db) (chat_id : Nat) (hwf : db.Wf) :
    (chatMessagesAsc db chat_id).Pairwise
      (fun a b => a.created_at ≤ b.created_at) := by
  rw [chatMessagesAsc_eq_filter db chat_id hwf]
  exact hwf.1.sublist (List.filter_sublist _)

theorem chatMessagesAsc_created_lt_clock (db : Db) (chat_id : Nat)
    (hwf : db.Wf) : ∀ m ∈ chatMessagesAsc db chat_id,
      m.created_at < db.clock := by
  intro m hm
  rw [chatMessagesAsc_eq_filter db chat_id hwf] at hm
  exact hwf.2 m (List.mem_of_mem_filter hm)

/-! ## Helper lemmas: pagination -/

theorem paginate_eq (l : List α) (i page_size : Nat) :
    paginate l (i + 1) page_size = (l.drop (i * page_size)).take page_size := by
  simp [paginate]

theorem flatten_paginate_take (l : List α) (page_size : Nat) (k : Nat) :
    ((List.range k).map (fun i => paginate l (i + 1) page_size)).flatten =
      l.take (k * page_size) := by
  induction k with
  | zero => simp
  | succ k ih =>
    rw [List.range_succ, List.map_append, List.flatten_append, ih]
    simp only [List.map_cons, List.map_nil, List.flatten_cons,
      List.flatten_nil, List.append_nil, paginate_eq]
    rw [Nat.succ_mul, List.take_add]

/-- Concatenating pages 1..k in order reproduces the whole list, as soon as
`k` pages cover its length. -/
theorem flatten_paginate (l : List α) (page_size : Nat) (k : Nat)
    (hk : l.length ≤ k * page_size) :
    ((List.range k).map (fun i => paginate l (i + 1) page_size)).flatten = l := by
  rw [flatten_paginate_take]
  exact List.take_of_length_le hk

/-- The route arithmetic `math.ceil(total / page_size) if total > 0 else 0`
agrees with natural ceiling division. -/
theorem totalPagesOf_eq (total page_size : Nat) (h : 0 < page_size) :
    totalPagesOf total page_size =
      if total = 0 then 0 else (total + page_size - 1) / page_size := by
  unfold totalPagesOf
  rcases Nat.eq_zero_or_pos total with h0 | h0
  · simp [h0]
  · rw [if_pos h0, if_neg (Nat.pos_iff_ne_zero.mp h0)]
    set n := (total + page_size - 1) / page_size with hn
    have h1 : page_size * n + (total + page_size - 1) % page_size =
        total + page_size - 1 := Nat.div_add_mod _ _
    have h2 : (total + page_size - 1) % page_size < page_size :=
      Nat.mod_lt _ h
    have hub : total ≤ page_size * n := by omega
    have hlb : page_size * n < total + page_size := by omega
    have hn1 : 1 ≤ n := by
      rcases Nat.eq_zero_or_pos n with hz | hz
      · rw [hz] at hub; omega
      · exact hz
    have hps : (0 : ℚ) < (page_size : ℚ) := by exact_mod_cast h
    rw [Nat.ceil_eq_iff (by omega)]
    constructor
    · rw [lt_div_iff₀ hps]
      have hcast : ((page_size : ℚ)) * n < total + page_size := by
        exact_mod_cast hlb
      have : ((n : ℚ) - 1) * page_size < total := by nlinarith
      calc ((n - 1 : ℕ) : ℚ) * page_size
          = ((n : ℚ) - 1) * page_size := by
            rw [Nat.cast_sub hn1, Nat.cast_one]
        _ < total := this
    · rw [div_le_iff₀ hps]
      have : (total : ℚ) ≤ page_size * n := by exact_mod_cast hub
      linarith

/-- `total` items fit into `totalPagesOf total page_size` pages. -/
theorem le_totalPages_mul (total page_size : Nat) (h : 0 < page_size) :
    total ≤ totalPagesOf total page_size * page_size := by
  rw [totalPagesOf_eq total page_size h]
  rcases Nat.eq_zero_or_pos total with h0 | h0
  · simp [h0]
  · rw [if_neg (Nat.pos_iff_ne_zero.mp h0)]
    have h1 : page_size * ((total + page_size - 1) / page_size) +
        (total + page_size - 1) % page_size = total + page_size - 1 :=
      Nat.div_add_mod _ _
    have h2 : (total + page_size - 1) % page_size < page_size :=
      Nat.mod_lt _ h
    have := Nat.mul_comm page_size ((total + page_size - 1) / page_size)
    omega

/-! ## Helper lemmas: Python string primitives -/

theorem dropWhile_head?_not (p : Char → Bool) (l : List Char) :
    ∀ c, (l.dropWhile p).head? = some c → p c = false := by
  induction l with
  | nil => intro c h; simp at h
  | cons x xs ih =>
    intro c h
    by_cases hx : p x
    · rw [List.dropWhile_cons_of_pos hx] at h
      exact ih c h
    · rw [List.dropWhile_cons_of_neg hx, List.head?_cons,
        Option.some_inj] at h
      rw [← h]
      exact Bool.eq_false_iff.mpr hx

theorem dropWhile_getLast?_eq (p : Char → Bool) (l : List Char)
    (h : l.dropWhile p ≠ []) : (l.dropWhile p).getLast? = l.getLast? := by
  induction l with
  | nil => simp at h
  | cons x xs ih =>
    by_cases hx : p x
    · rw [List.dropWhile_cons_of_pos hx] at h ⊢
      rw [ih h]
      have hxs : xs ≠ [] := by
        intro hc; rw [hc] at h; simp at h
      cases xs with
      | nil => exact absurd rfl hxs
      | cons y ys => rw [List.getLast?_cons_cons]
    · rw [List.dropWhile_cons_of_neg hx]

/-- The ends of a stripped list do not satisfy the stripped predicate. -/
theorem stripCharsList_head? (bad : Char → Bool) (l : List Char) :
    ∀ c, (stripCharsList bad l).head? = some c → bad c = false := by
  intro c h
  unfold stripCharsList at h
  rw [List.head?_reverse] at h
  have hne : (l.dropWhile bad).reverse.dropWhile bad ≠ [] := by
    intro hc
    rw [hc] at h; simp at h
  rw [dropWhile_getLast?_eq bad _ hne, List.getLast?_reverse] at h
  exact dropWhile_head?_not bad l c h

theorem stripCharsList_getLast? (bad : Char → Bool) (l : List Char) :
    ∀ c, (stripCharsList bad l).getLast? = some c → bad c = false := by
  intro c h
  unfold stripCharsList at h
  rw [List.getLast?_reverse] at h
  exact dropWhile_head?_not bad _ c h

/-- A word: nonempty and free of separator characters. -/
def WfWord (w : List Char) : Prop :=
  w ≠ [] ∧ ∀ c ∈ w, isPySpace c = false

theorem splitWsAux_nonspace (w : List Char)
    (hw : ∀ c ∈ w, isPySpace c = false) :
    ∀ acc l, splitWsAux acc (w ++ l) = splitWsAux (w.reverse ++ acc) l := by
  induction w with
  | nil => intro acc l; simp
  | cons x xs ih =>
    intro acc l
    have hx := hw x (List.mem_cons_self _ _)
    simp only [List.cons_append, splitWsAux, hx, Bool.false_eq_true,
      if_false, List.append_eq]
    rw [ih (fun c hc => hw c (List.mem_cons_of_mem _ hc)) (x :: acc) l]
    simp [List.append_assoc]

theorem splitWsChars_single (w : List Char) (hw : WfWord w) :
    splitWsChars w = [w] := by
  obtain ⟨hne, hall⟩ := hw
  unfold splitWsChars
  have h1 := splitWsAux_nonspace w hall [] []
  simp only [List.append_nil] at h1
  rw [h1]
  cases hrev : w.reverse with
  | nil => exact absurd (List.reverse_eq_nil_iff.mp hrev) hne
  | cons y ys =>
    simp [splitWsAux, ← hrev]

theorem splitWsChars_word_space (w t : List Char) (hw : WfWord w) :
    splitWsChars (w ++ ' ' :: t) = w :: splitWsChars t := by
  obtain ⟨hne, hall⟩ := hw
  unfold splitWsChars
  rw [splitWsAux_nonspace w hall [] (' ' :: t)]
  simp only [List.append_nil]
  cases hrev : w.reverse with
  | nil => exact absurd (List.reverse_eq_nil_iff.mp hrev) hne
  | cons y ys =>
    have hsp : isPySpace ' ' = true := by decide
    simp [splitWsAux, hsp, ← hrev]

theorem splitWsAux_wf (l : List Char) :
    ∀ acc, (∀ c ∈ acc, isPySpace c = false) →
      ∀ w ∈ splitWsAux acc l, WfWord w := by
  induction l with
  | nil =>
    intro acc hacc w hw
    cases acc with
    | nil => simp [splitWsAux] at hw
    | cons a as =>
      simp only [splitWsAux, List.mem_singleton] at hw
      subst hw
      refine ⟨by simp, ?_⟩
      intro c hc
      exact hacc c (List.mem_reverse.mp hc)
  | cons c cs ih =>
    intro acc hacc w hw
    by_cases hc : isPySpace c
    · cases acc with
      | nil =>
        simp only [splitWsAux, hc, if_true] at hw
        exact ih [] (by simp) w hw
      | cons a as =>
        simp only [splitWsAux, hc, if_true] at hw
        rcases List.mem_cons.mp hw with hw | hw
        · subst hw
          refine ⟨by simp, ?_⟩
          intro d hd
          exact hacc d (List.mem_reverse.mp hd)
        · exact ih [] (by simp) w hw
    · simp only [splitWsAux, hc, Bool.false_eq_true, if_false] at hw
      refine ih (c :: acc) ?_ w hw
      intro d hd
      rcases List.mem_cons.mp hd with hd | hd
      · rw [hd]; exact Bool.eq_false_iff.mpr hc
      · exact hacc d hd

/-- Every piece produced by the splitter is a word. -/
theorem splitWsChars_wf (l : List Char) :
    ∀ w ∈ splitWsChars l, WfWord w :=
  splitWsAux_wf l [] (by simp)

theorem splitWs_joinSpace_chars (ws : List String)
    (h : ∀ w ∈ ws, WfWord w.toList) :
    splitWsChars (joinSpace ws).toList = ws.map String.toList := by
  induction ws with
  | nil => rfl
  | cons w vs ih =>
    cases vs with
    | nil =>
      show splitWsChars w.toList = [w.toList]
      exact splitWsChars_single _ (h w (List.mem_cons_self _ _))
    | cons v rest =>
      have hjoin : (joinSpace (w :: v :: rest)).toList =
          w.toList ++ ' ' :: (joinSpace (v :: rest)).toList := by
        show (w.toList ++ [' ']) ++ (joinSpace (v :: rest)).toList = _
        rw [List.append_assoc]
        rfl
      rw [hjoin, splitWsChars_word_space _ _ (h w (List.mem_cons_self _ _))]
      rw [ih (fun u hu => h u (List.mem_cons_of_mem _ hu))]
      rfl

theorem pySplit_joinSpace (ws : List String)
    (h : ∀ w ∈ ws, WfWord w.toList) : pySplit (joinSpace ws) = ws := by
  unfold pySplit
  rw [splitWs_joinSpace_chars ws h, List.map_map]
  have hid : String.mk ∘ String.toList = id := funext fun s => rfl
  rw [hid, List.map_id]

/-- Every element of `pySplit s` is a word when read back as characters. -/
theorem pySplit_wf (s : String) : ∀ w ∈ pySplit s, WfWord w.toList := by
  intro w hw
  unfold pySplit at hw
  rcases List.mem_map.mp hw with ⟨cs, hcs, hw⟩
  rw [← hw]
  exact splitWsChars_wf _ cs hcs

/-- Neither end of the final title is a quote character. -/
def noSurroundingQuote (s : String) : Bool :=
  (match s.toList.head? with
   | none => true
   | some c => !isQuoteChar c) &&
  (match s.toList.getLast? with
   | none => true
   | some c => !isQuoteChar c)

theorem stripQuotes_noSurroundingQuote (s : String) :
    noSurroundingQuote (stripQuotes s) = true := by
  unfold noSurroundingQuote
  rw [Bool.and_eq_true]
  constructor
  · cases hh : (stripQuotes s).toList.head? with
    | none => rfl
    | some c =>
      have := stripCharsList_head? isQuoteChar s.toList c hh
      simp [this]
  · cases hh : (stripQuotes s).toList.getLast? with
    | none => rfl
    | some c =>
      have := stripCharsList_getLast? isQuoteChar s.toList c hh
      simp [this]

/-! ## Helper lemmas: `generate_chat_title` -/

theorem length_append_str (a b : String) :
    (a ++ b).length = a.length + b.length :=
  List.length_append a.toList b.toList

/-- The produced title never exceeds the 200-character database bound. -/
theorem gct_length (x : Option String) :
    (generate_chat_title x).length ≤ 200 := by
  cases x with
  | none => decide
  | some raw =>
    unfold generate_chat_title
    by_cases h0 : pyStrip raw = ""
    · simp only [h0, if_pos rfl]; decide
    · simp only [if_neg h0]
      set r := stripQuotes (pyStrip raw) with hr
      set t1 := if (pySplit r).length > 6 then
          joinSpace ((pySplit r).take 6) else r with ht1
      by_cases h200 : t1.length > 200
      · simp only [if_pos h200]
        rw [length_append_str]
        have htl : t1.toList.length = t1.length := rfl
        have : (String.mk (t1.toList.take 197)).length = 197 := by
          show (t1.toList.take 197).length = 197
          rw [List.length_take]
          omega
        rw [this]
        decide
      · simp only [if_neg h200]
        omega

/-- The produced title has at most six words, unless it is the
200-character truncation (whose appended ellipsis can count as a seventh
word). -/
theorem gct_words (x : Option String) :
    (pySplit (generate_chat_title x)).length ≤ 6 ∨
      (generate_chat_title x).length = 200 := by
  cases x with
  | none => left; decide
  | some raw =>
    unfold generate_chat_title
    by_cases h0 : pyStrip raw = ""
    · simp only [h0, if_pos rfl]; left; decide
    · simp only [if_neg h0]
      set r := stripQuotes (pyStrip raw) with hr
      by_cases h6 : (pySplit r).length > 6
      · simp only [if_pos h6]
        set t1 := joinSpace ((pySplit r).take 6) with ht1
        by_cases h200 : t1.length > 200
        · right
          simp only [if_pos h200]
          rw [length_append_str]
          have htl : t1.toList.length = t1.length := rfl
          have : (String.mk (t1.toList.take 197)).length = 197 := by
            show (t1.toList.take 197).length = 197
            rw [List.length_take]
            omega
          rw [this]
          rfl
        · left
          simp only [if_neg h200]
          rw [ht1, pySplit_joinSpace _ (fun w hw =>
            pySplit_wf r w (List.take_subset _ _ hw))]
          have := List.length_take 6 (pySplit r)
          omega
      · simp only [if_neg h6]
        by_cases h200 : r.length > 200
        · right
          simp only [if_pos h200]
          rw [length_append_str]
          have hrl : r.toList.length = r.length := rfl
          have : (String.mk (r.toList.take 197)).length = 197 := by
            show (r.toList.take 197).length = 197
            rw [List.length_take]
            omega
          rw [this]
          rfl
        · left
          simp only [if_neg h200]
          omega

/-- When the cleaned completion already fits the six-word and 200-character
bounds, the title is exactly the cleaned completion. -/
theorem gct_clean (raw : String) (h0 : pyStrip raw ≠ "")
    (h6 : (pySplit (stripQuotes (pyStrip raw))).length ≤ 6)
    (h200 : (stripQuotes (pyStrip raw)).length ≤ 200) :
    generate_chat_title (some raw) = stripQuotes (pyStrip raw) := by
  unfold generate_chat_title
  simp only [if_neg h0]
  have h6' : ¬((pySplit (stripQuotes (pyStrip raw))).length > 6) := by omega
  rw [if_neg h6']
  have h200' : ¬((stripQuotes (pyStrip raw)).length > 200) := by omega
  rw [if_neg h200']

/-! ## Concrete fixtures used by the witness theorems -/

def u1 : User := ⟨1, "ada@example.com"⟩

def u2 : User := ⟨2, "eve@example.com"⟩

def chat1 : Chat := ⟨10, 1, "New Chat", 0, 0, 0⟩

def db1 : Db := ⟨[u1, u2], [chat1], [], 11⟩

def okProvider : List GroqMessage → Option String := fun _ => some "Hello!"

def failProvider : List GroqMessage → Option String := fun _ => none

def okTitleProvider : String → Option String := fun _ => some "Great Question"

/-! ## Claims -/

/-- C9 (amended): every chat created by `create_chat` is owned by the
calling user and is appended to the store; the title defaults to
"New Chat" exactly when the supplied title is absent (pydantic then
supplies the default "New Chat" itself), `null`, or the empty string, and
any other supplied string — including one made only of whitespace — is
kept verbatim. -/
theorem create_chat_spec (db : Db) (user : User) (title? : Option String) :
    (create_chat db user title?).2.user_id = user.id ∧
    ((title? = none ∨ title? = some "") →
      (create_chat db user title?).2.title = "New Chat") ∧
    (∀ s, title? = some s → s ≠ "" →
      (create_chat db user title?).2.title = s) ∧
    (create_chat db user title?).1.chats =
      db.chats ++ [(create_chat db user title?).2] := by
  refine ⟨rfl, ?_, ?_, rfl⟩
  · intro h
    rcases h with h | h <;> rw [h] <;> simp [create_chat, pyOrStr]
  · intro s hs hne
    rw [hs]
    simp [create_chat, pyOrStr, hne]

theorem create_chat_spec_witness :
    (create_chat db1 u1 (some "My Chat")).2.user_id = u1.id ∧
    (create_chat db1 u1 (some "My Chat")).2.title = "My Chat" := by
  have h := create_chat_spec db1 u1 (some "My Chat")
  exact ⟨h.1, h.2.2.1 "My Chat" rfl (by decide)⟩

/-- C9 counterexample: a title consisting of a single space is truthy in
Python, so `chat_data.title or "New Chat"` keeps it verbatim instead of
replacing it with the default, contradicting the claim for whitespace-only
blanks. -/
theorem create_chat_blank_title_kept :
    (create_chat db1 u1 (some " ")).2.title = " " ∧
      (" " : String) ≠ "New Chat" := by
  refine ⟨?_, by decide⟩
  simp [create_chat, pyOrStr, db1, u1]

/-- C4 (amended): identity resolution fails with 401 when the token does
not decode (malformed, bad signature, expired), when the payload lacks a
subject claim, or when the subject is not a well-formed identifier; when
the subject names a user that does not exist it fails with 404 (NotFound,
via `AuthService.get_user_by_id`), not 401; otherwise it returns the
user. -/
theorem resolve_identity_cases (db : Db) (payload : Option TokenPayload) :
    (payload = none →
      get_current_user db payload =
        .error ⟨401, "Could not validate credentials"⟩) ∧
    (∀ p, payload = some p → p.sub = none →
      get_current_user db payload = .error ⟨401, "Invalid token payload"⟩) ∧
    (∀ p s, payload = some p → p.sub = some s → parseUserId s = none →
      get_current_user db payload = .error ⟨401, "Invalid user ID in token"⟩) ∧
    (∀ p s uid, payload = some p → p.sub = some s →
      parseUserId s = some uid →
      (db.users.find? (fun u => u.id = uid) = none →
        get_current_user db payload = .error ⟨404, "User not found"⟩) ∧
      (∀ u, db.users.find? (fun u => u.id = uid) = some u →
        get_current_user db payload = .ok u)) := by
  refine ⟨?_, ?_, ?_, ?_⟩
  · intro h; rw [h]; rfl
  · intro p hp hsub
    rw [hp]
    simp [get_current_user, hsub]
  · intro p s hp hsub hparse
    rw [hp]
    simp [get_current_user, hsub, hparse]
  · intro p s uid hp hsub hparse
    constructor
    · intro hfind
      rw [hp]
      simp [get_current_user, hsub, hparse, get_user_by_id, hfind]
    · intro u hfind
      rw [hp]
      simp [get_current_user, hsub, hparse, get_user_by_id, hfind]

theorem resolve_identity_cases_witness :
    get_current_user db1 (some ⟨some "1"⟩) = .ok u1 ∧
    get_current_user db1 none =
      .error ⟨401, "Could not validate credentials"⟩ := by
  have h := resolve_identity_cases db1 (some ⟨some "1"⟩)
  have h' := resolve_identity_cases db1 none
  refine ⟨(h.2.2.2 ⟨some "1"⟩ "1" 1 rfl rfl (by decide)).2 u1 (by decide), ?_⟩
  exact h'.1 rfl

/-- C4 counterexample: a syntactically valid token whose subject names no
existing user is rejected with status 404, not 401 as the claim states. -/
theorem resolve_identity_missing_user_404 :
    get_current_user db1 (some ⟨some "7"⟩) =
      .error ⟨404, "User not found"⟩ ∧ (404 : Nat) ≠ 401 := by
  refine ⟨?_, by decide⟩
  rfl

/-- Inversion for a successful ownership check. -/
theorem get_chat_by_id_ok (db : Db) (chat_id : Nat) (user : User)
    (chat : Chat) (h : get_chat_by_id db chat_id user = .ok chat) :
    db.chats.find? (fun c => c.id = chat_id) = some chat ∧
    chat.id = chat_id ∧ chat.user_id = user.id := by
  unfold get_chat_by_id at h
  cases hf : db.chats.find? (fun c => c.id = chat_id) with
  | none => rw [hf] at h; exact absurd h (by simp)
  | some c =>
    rw [hf] at h
    dsimp only at h
    by_cases ho : c.user_id ≠ user.id
    · rw [if_pos ho] at h; exact absurd h (by simp)
    · rw [if_neg ho] at h
      have hc : c = chat := by injection h
      push_neg at ho
      have hp := List.find?_some hf
      simp only [decide_eq_true_eq] at hp
      subst hc
      exact ⟨rfl, hp, ho⟩

/-- C5: for every chat-scoped operation (direct fetch, fetch with
messages, rename, delete, send message, list messages), an unknown chat id
yields 404, a chat owned by a different user yields 403 (never 404, never
success), and the owner gets the chat back. -/
theorem chat_access_control (db : Db) (user : User) (chat_id : Nat)
    (new_title content : String) (page page_size : Nat)
    (provider : List GroqMessage → Option String)
    (titleProvider : String → Option String) :
    (db.chats.find? (fun c => c.id = chat_id) = none →
      get_chat_by_id db chat_id user = .error ⟨404, "Chat not found"⟩ ∧
      get_chat_with_messages db chat_id user =
        .error ⟨404, "Chat not found"⟩ ∧
      (update_chat_title db chat_id user new_title).2 =
        .error ⟨404, "Chat not found"⟩ ∧
      (delete_chat db chat_id user).2 = .error ⟨404, "Chat not found"⟩ ∧
      (send_message db chat_id user content provider titleProvider).2 =
        .error ⟨404, "Chat not found"⟩ ∧
      get_chat_messages_route db chat_id user page page_size =
        .error ⟨404, "Chat not found"⟩) ∧
    (∀ c, db.chats.find? (fun c => c.id = chat_id) = some c →
      c.user_id ≠ user.id →
      get_chat_by_id db chat_id user =
        .error ⟨403, "Not authorized to access this chat"⟩ ∧
      get_chat_with_messages db chat_id user =
        .error ⟨403, "Not authorized to access this chat"⟩ ∧
      (update_chat_title db chat_id user new_title).2 =
        .error ⟨403, "Not authorized to access this chat"⟩ ∧
      (delete_chat db chat_id user).2 =
        .error ⟨403, "Not authorized to access this chat"⟩ ∧
      (send_message db chat_id user content provider titleProvider).2 =
        .error ⟨403, "Not authorized to access this chat"⟩ ∧
      get_chat_messages_route db chat_id user page page_size =
        .error ⟨403, "Not authorized to access this chat"⟩) ∧
    (∀ c, db.chats.find? (fun c => c.id = chat_id) = some c →
      c.user_id = user.id → get_chat_by_id db chat_id user = .ok c) := by
  refine ⟨?_, ?_, ?_⟩
  · intro hfind
    have hg : get_chat_by_id db chat_id user =
        .error ⟨404, "Chat not found"⟩ := by
      simp [get_chat_by_id, hfind]
    exact ⟨hg, by simp [get_chat_with_messages, hg],
      by simp [update_chat_title, hg], by simp [delete_chat, hg],
      by simp [send_message, hg], by simp [get_chat_messages_route, hg]⟩
  · intro c hfind howner
    have hg : get_chat_by_id db chat_id user =
        .error ⟨403, "Not authorized to access this chat"⟩ := by
      simp [get_chat_by_id, hfind, howner]
    exact ⟨hg, by simp [get_chat_with_messages, hg],
      by simp [update_chat_title, hg], by simp [delete_chat, hg],
      by simp [send_message, hg], by simp [get_chat_messages_route, hg]⟩
  · intro c hfind howner
    simp [get_chat_by_id, hfind, howner]

theorem chat_access_control_witness :
    get_chat_by_id db1 10 u1 = .ok chat1 ∧
    (send_message db1 99 u1 "Hi" okProvider okTitleProvider).2 =
      .error ⟨404, "Chat not found"⟩ ∧
    (delete_chat db1 10 u2).2 =
      .error ⟨403, "Not authorized to access this chat"⟩ := by
  have hok := chat_access_control db1 u1 10 "t" "Hi" 1 20
    okProvider okTitleProvider
  have h404 := chat_access_control db1 u1 99 "t" "Hi" 1 20
    okProvider okTitleProvider
  have h403 := chat_access_control db1 u2 10 "t" "Hi" 1 20
    okProvider okTitleProvider
  refine ⟨hok.2.2 chat1 (by decide) (by decide), ?_, ?_⟩
  · exact (h404.1 (by decide)).2.2.2.2.1
  · exact (h403.2.1 chat1 (by decide) (by decide)).2.2.2.1

/-- C7: both list routes report `total` as the number of persisted rows in
scope and `total_pages` as the ceiling of `total / page_size` when
`total > 0`, and `0` when `total = 0` (ceiling division written as
`(total + page_size - 1) / page_size` over the naturals). -/
theorem list_total_pages (db : Db) (user : User) (chat_id : Nat)
    (page page_size : Nat) (h1 : 1 ≤ page_size) (h2 : page_size ≤ 100) :
    ((get_user_chats_route db user page page_size).total =
      (db.chats.filter (fun c => c.user_id = user.id)).length) ∧
    ((get_user_chats_route db user page page_size).total_pages =
      if (db.chats.filter (fun c => c.user_id = user.id)).length = 0 then 0
      else ((db.chats.filter (fun c => c.user_id = user.id)).length +
        page_size - 1) / page_size) ∧
    (∀ res, get_chat_messages_route db chat_id user page page_size =
        .ok res →
      res.total =
        (db.messages.filter (fun m => m.chat_id = chat_id)).length ∧
      res.total_pages = if res.total = 0 then 0
        else (res.total + page_size - 1) / page_size) := by
  refine ⟨rfl, ?_, ?_⟩
  · show totalPagesOf _ page_size = _
    exact totalPagesOf_eq _ page_size h1
  · intro res hres
    unfold get_chat_messages_route at hres
    cases hfind : get_chat_by_id db chat_id user with
    | error e => rw [hfind] at hres; exact absurd hres (by simp)
    | ok chat =>
      obtain ⟨hf, hcid, huid⟩ := get_chat_by_id_ok db chat_id user chat hfind
      rw [hfind] at hres
      have htot : (get_chat_messages db chat page page_size).2 =
          (db.messages.filter (fun m => m.chat_id = chat_id)).length := by
        simp [get_chat_messages, hcid]
      have hres' : res.total = (get_chat_messages db chat page page_size).2
          ∧ res.total_pages =
            totalPagesOf (get_chat_messages db chat page page_size).2
              page_size := by
        have h' : Except.ok (ε := HTTPError)
            (MessageListResponse.mk
              (get_chat_messages db chat page page_size).1
              (get_chat_messages db chat page page_size).2 page page_size
              (totalPagesOf (get_chat_messages db chat page page_size).2
                page_size)) = .ok res := hres
        injection h' with h'
        rw [← h']
        exact ⟨rfl, rfl⟩
      constructor
      · rw [hres'.1, htot]
      · rw [hres'.2, htot, totalPagesOf_eq _ page_size h1, ← htot,
          hres'.1]

theorem list_total_pages_witness :
    (get_user_chats_route db1 u1 1 20).total = 1 ∧
    (get_user_chats_route db1 u1 1 20).total_pages = 1 := by
  have h := list_total_pages db1 u1 10 1 20 (by decide) (by decide)
  refine ⟨by rw [h.1]; rfl, ?_⟩
  rw [h.2.1]
  rfl

/-- Inversion for a successful `create_message_and_respond`: shape of the
two staged messages, of the new store, and of the title update. -/
theorem cmr_ok_spec (db : Db) (chat : Chat) (content : String)
    (provider : List GroqMessage → Option String)
    (titleProvider : String → Option String)
    (db' : Db) (um am : Message) (tg : Bool)
    (h : create_message_and_respond db chat content provider titleProvider
      = (db', .ok (um, am, tg))) :
    um = ⟨chat.id, .user, content, db.clock⟩ ∧
    am.chat_id = chat.id ∧ am.role = .assistant ∧
    am.created_at = db.clock + 1 ∧
    generate_response provider content (chatMessagesAsc db chat.id) =
      .ok am.content ∧
    db'.users = db.users ∧
    db'.messages = db.messages ++ [um, am] ∧
    db'.clock = db.clock + 2 ∧
    ∃ newTitle,
      db'.chats = db.chats.map (fun c =>
        if c.id = chat.id then
          { c with
              title := newTitle
              message_count := (chatMessagesAsc db chat.id).length + 2
              updated_at := db.clock + 1 }
        else c) ∧
      ((chatMessagesAsc db chat.id).length ≠ 0 →
        newTitle = chat.title ∧ tg = false) ∧
      ((chatMessagesAsc db chat.id).length = 0 →
        (generate_chat_title (titleProvider content) ≠ "" ∧
            generate_chat_title (titleProvider content) ≠ "New Chat" →
          newTitle = generate_chat_title (titleProvider content) ∧
            tg = true) ∧
        (¬(generate_chat_title (titleProvider content) ≠ "" ∧
            generate_chat_title (titleProvider content) ≠ "New Chat") →
          newTitle = chat.title ∧ tg = false)) := by
  simp only [create_message_and_respond] at h
  cases hgr : generate_response provider content (chatMessagesAsc db chat.id)
    with
  | error e => rw [hgr] at h; exact absurd h (by simp)
  | ok text =>
    rw [hgr] at h
    rw [Prod.mk.injEq] at h
    obtain ⟨hdb, hok⟩ := h
    rw [Except.ok.injEq, Prod.mk.injEq, Prod.mk.injEq] at hok
    obtain ⟨hum, ham, htg⟩ := hok
    subst hdb hum ham htg
    refine ⟨rfl, rfl, rfl, rfl, rfl, rfl, rfl, rfl, ?_⟩
    by_cases hfirst : (chatMessagesAsc db chat.id).length = 0
    · by_cases hcond : generate_chat_title (titleProvider content) ≠ "" ∧
          generate_chat_title (titleProvider content) ≠ "New Chat"
      · refine ⟨generate_chat_title (titleProvider content), ?_, ?_, ?_⟩
        · simp [hfirst, hcond]
        · intro hne; exact absurd hfirst hne
        · intro _
          refine ⟨fun _ => ⟨rfl, by simp [hfirst, hcond]⟩,
            fun hc => absurd hcond hc⟩
      · refine ⟨chat.title, ?_, ?_, ?_⟩
        · simp [hfirst, hcond]
        · intro hne; exact absurd hfirst hne
        · intro _
          exact ⟨fun hc => absurd hc hcond,
            fun _ => ⟨rfl, by simp [hfirst, hcond]⟩⟩
    · refine ⟨chat.title, ?_, ?_, ?_⟩
      · simp [hfirst]
      · intro _; exact ⟨rfl, by simp [hfirst]⟩
      · intro hc; exact absurd hc hfirst

/-- C1: a successful send on a chat with N prior messages appends exactly
the user message (with the caller's content) and the assistant message
(with the generated text), in that order, to the chat's message sequence;
the chat's `message_count` becomes N + 2; and both new creation timestamps
are at least those of every prior message. -/
theorem send_message_appends_two (db : Db) (chat : Chat) (content : String)
    (provider : List GroqMessage → Option String)
    (titleProvider : String → Option String)
    (db' : Db) (um am : Message) (tg : Bool) (hwf : db.Wf)
    (h : create_message_and_respond db chat content provider titleProvider
      = (db', .ok (um, am, tg))) :
    chatMessagesAsc db' chat.id = chatMessagesAsc db chat.id ++ [um, am] ∧
    um.role = .user ∧ um.content = content ∧ am.role = .assistant ∧
    generate_response provider content (chatMessagesAsc db chat.id) =
      .ok am.content ∧
    (∀ c ∈ db'.chats, c.id = chat.id →
      c.message_count = (chatMessagesAsc db chat.id).length + 2) ∧
    (∀ m ∈ chatMessagesAsc db chat.id,
      m.created_at ≤ um.created_at ∧ m.created_at ≤ am.created_at) ∧
    um.created_at < am.created_at := by
  obtain ⟨hum, hamid, hamrole, hamts, hgr, husers, hmsgs, hclock,
    newTitle, hchats, -, -⟩ :=
    cmr_ok_spec db chat content provider titleProvider db' um am tg h
  have humts : um.created_at = db.clock := by rw [hum]
  have humid : um.chat_id = chat.id := by rw [hum]
  have humrole : um.role = .user := by rw [hum]
  have humcontent : um.content = content := by rw [hum]
  have hlt := chatMessagesAsc_created_lt_clock db chat.id hwf
  refine ⟨?_, humrole, humcontent, hamrole, hgr, ?_, ?_, ?_⟩
  · unfold chatMessagesAsc
    rw [hmsgs, List.filter_append]
    have hfil2 : [um, am].filter (fun m => m.chat_id = chat.id)
        = [um, am] := by
      simp [List.filter, humid, hamid]
    rw [hfil2]
    have hpw : (db.messages.filter (fun m => m.chat_id = chat.id)
        ++ [um, am]).Pairwise (fun a b => a.created_at ≤ b.created_at) := by
      rw [List.pairwise_append]
      refine ⟨hwf.1.sublist (List.filter_sublist _), ?_, ?_⟩
      · refine List.pairwise_cons.mpr ⟨?_, by simp⟩
        intro b hb
        rcases List.mem_cons.mp hb with hb | hb
        · rw [hb, humts, hamts]; omega
        · simp at hb
      · intro a ha b hb
        have ha' : a.created_at < db.clock :=
          hwf.2 a (List.mem_of_mem_filter ha)
        rcases List.mem_cons.mp hb with hb | hb
        · rw [hb, humts]; omega
        · rcases List.mem_cons.mp hb with hb | hb
          · rw [hb, hamts]; omega
          · simp at hb
    rw [sortLe_eq_self _ _ hpw,
      sortLe_eq_self _ _ (hwf.1.sublist (List.filter_sublist _))]
  · intro c hc hcid
    rw [hchats] at hc
    rcases List.mem_map.mp hc with ⟨c₀, hc₀, hcf⟩
    by_cases h0 : c₀.id = chat.id
    · rw [if_pos h0] at hcf
      rw [← hcf]
    · rw [if_neg h0] at hcf
      rw [← hcf] at hcid
      exact absurd hcid h0
  · intro m hm
    have := hlt m hm
    exact ⟨by rw [humts]; omega, by rw [hamts]; omega⟩
  · rw [humts, hamts]; omega

theorem send_message_appends_two_witness :
    chatMessagesAsc (create_message_and_respond db1 chat1 "Hi" okProvider
        okTitleProvider).1 10 =
      chatMessagesAsc db1 10 ++
        [⟨10, .user, "Hi", 11⟩, ⟨10, .assistant, "Hello!", 12⟩] ∧
    (⟨10, .user, "Hi", 11⟩ : Message).created_at <
      (⟨10, .assistant, "Hello!", 12⟩ : Message).created_at := by
  have h := send_message_appends_two db1 chat1 "Hi" okProvider
    okTitleProvider
    (create_message_and_respond db1 chat1 "Hi" okProvider okTitleProvider).1
    ⟨10, .user, "Hi", 11⟩ ⟨10, .assistant, "Hello!", 12⟩ true
    (by decide) rfl
  exact ⟨h.1, h.2.2.2.2.2.2.2⟩

/-- C2: when the provider raises or returns no usable (falsy) text, the
send fails with status 500 and commits nothing: the store — including
every chat title and message count and all messages — is returned exactly
as it was. -/
theorem provider_failure_aborts (db : Db) (chat : Chat) (content : String)
    (provider : List GroqMessage → Option String)
    (titleProvider : String → Option String)
    (h : provider (buildGroqMessages content (chatMessagesAsc db chat.id))
        = none ∨
      provider (buildGroqMessages content (chatMessagesAsc db chat.id))
        = some "") :
    create_message_and_respond db chat content provider titleProvider =
      (db, .error ⟨500, "AI service error"⟩) := by
  have hgr : generate_response provider content (chatMessagesAsc db chat.id)
      = .error ⟨500, "AI service error"⟩ := by
    unfold generate_response
    rcases h with h | h
    · rw [h]
    · rw [h]
      simp
  simp only [create_message_and_respond, hgr]

theorem provider_failure_aborts_witness :
    create_message_and_respond db1 chat1 "Hi" failProvider okTitleProvider =
      (db1, .error ⟨500, "AI service error"⟩) :=
  provider_failure_aborts db1 chat1 "Hi" failProvider okTitleProvider
    (Or.inl rfl)

/-- C3: the provider always receives exactly one fixed system instruction
first, then at most the 10 most recent prior messages (a suffix of the
ascending history, mapped role-for-role), then the new user content last;
the send consults the provider only on that sequence, and a successful
send never deletes stored messages. -/
theorem context_window (u : String) (hist : List Message) (db : Db)
    (chat : Chat) (content : String)
    (p₁ p₂ : List GroqMessage → Option String)
    (tp : String → Option String) :
    buildGroqMessages u hist =
      ⟨"system", get_system_prompt⟩ ::
        ((recentOf hist).map toGroq ++ [⟨"user", u⟩]) ∧
    (recentOf hist).length ≤ 10 ∧
    List.IsSuffix (recentOf hist) hist ∧
    (hist.length ≤ 10 → recentOf hist = hist) ∧
    (p₁ (buildGroqMessages content (chatMessagesAsc db chat.id)) =
        p₂ (buildGroqMessages content (chatMessagesAsc db chat.id)) →
      create_message_and_respond db chat content p₁ tp =
        create_message_and_respond db chat content p₂ tp) ∧
    (∀ db' um am tg,
      create_message_and_respond db chat content p₁ tp =
        (db', .ok (um, am, tg)) →
      ∀ m ∈ db.messages, m ∈ db'.messages) := by
  refine ⟨?_, ?_, ?_, ?_, ?_, ?_⟩
  · unfold buildGroqMessages
    by_cases he : hist.isEmpty
    · have h0 : hist = [] := List.isEmpty_iff.mp he
      subst h0
      simp [recentOf]
    · simp [he]
  · unfold recentOf
    by_cases hlen : hist.length > 10
    · rw [if_pos hlen, List.length_drop]
      omega
    · rw [if_neg hlen]
      omega
  · unfold recentOf
    by_cases hlen : hist.length > 10
    · rw [if_pos hlen]
      exact List.drop_suffix _ _
    · rw [if_neg hlen]
  · intro hle
    unfold recentOf
    rw [if_neg (by omega)]
  · intro hagree
    simp only [create_message_and_respond, generate_response]
    rw [hagree]
  · intro db' um am tg hok m hm
    obtain ⟨-, -, -, -, -, -, hmsgs, -, -, -, -⟩ :=
      cmr_ok_spec db chat content p₁ tp db' um am tg hok
    rw [hmsgs]
    exact List.mem_append_left _ hm

def msg0 : Message := ⟨10, .user, "Old", 5⟩

def db3 : Db := ⟨[u1], [chat1], [msg0], 11⟩

theorem context_window_witness :
    buildGroqMessages "Hi" [] =
      ⟨"system", get_system_prompt⟩ ::
        ((recentOf []).map toGroq ++ [⟨"user", "Hi"⟩]) ∧
    recentOf ([] : List Message) = [] ∧
    msg0 ∈ (create_message_and_respond db3 chat1 "Hi" okProvider
      okTitleProvider).1.messages := by
  have h := context_window "Hi" [] db1 chat1 "Hi" okProvider okProvider
    okTitleProvider
  have h3 := context_window "Hi" [] db3 chat1 "Hi" okProvider okProvider
    okTitleProvider
  refine ⟨h.1, h.2.2.2.1 (by decide), ?_⟩
  exact h3.2.2.2.2.2
    (create_message_and_respond db3 chat1 "Hi" okProvider
      okTitleProvider).1
    ⟨10, .user, "Hi", 11⟩ ⟨10, .assistant, "Hello!", 12⟩ false rfl
    msg0 (by decide)

/-- Shared title-update case analysis for a successful send. -/
theorem cmr_title_cases (db : Db) (chat : Chat)
    (content : String) (provider : List GroqMessage → Option String)
    (titleProvider : String → Option String)
    (db' : Db) (um am : Message) (tg : Bool)
    (h : create_message_and_respond db chat content provider titleProvider
      = (db', .ok (um, am, tg))) :
    ((chatMessagesAsc db chat.id).length = 0 →
      (generate_chat_title (titleProvider content) ≠ "" ∧
          generate_chat_title (titleProvider content) ≠ "New Chat" →
        tg = true ∧ ∀ c ∈ db'.chats, c.id = chat.id →
          c.title = generate_chat_title (titleProvider content)) ∧
      (¬(generate_chat_title (titleProvider content) ≠ "" ∧
          generate_chat_title (titleProvider content) ≠ "New Chat") →
        tg = false ∧ ∀ c ∈ db'.chats, c.id = chat.id →
          c.title = chat.title)) ∧
    ((chatMessagesAsc db chat.id).length ≠ 0 →
      tg = false ∧ ∀ c ∈ db'.chats, c.id = chat.id →
        c.title = chat.title) := by
  obtain ⟨-, -, -, -, -, -, -, -, newTitle, hchats, hnonempty, hempty⟩ :=
    cmr_ok_spec db chat content provider titleProvider db' um am tg h
  have htl : ∀ c ∈ db'.chats, c.id = chat.id → c.title = newTitle := by
    intro c hc hcid
    rw [hchats] at hc
    rcases List.mem_map.mp hc with ⟨c₀, hc₀, hcf⟩
    by_cases h0 : c₀.id = chat.id
    · rw [if_pos h0] at hcf
      rw [← hcf]
    · rw [if_neg h0] at hcf
      rw [← hcf] at hcid
      exact absurd hcid h0
  constructor
  · intro hfirst
    obtain ⟨hyes, hno⟩ := hempty hfirst
    constructor
    · intro hcond
      obtain ⟨ht, htg⟩ := hyes hcond
      exact ⟨htg, fun c hc hcid => by rw [htl c hc hcid, ht]⟩
    · intro hcond
      obtain ⟨ht, htg⟩ := hno hcond
      exact ⟨htg, fun c hc hcid => by rw [htl c hc hcid, ht]⟩
  · intro hne
    obtain ⟨ht, htg⟩ := hnonempty hne
    exact ⟨htg, fun c hc hcid => by rw [htl c hc hcid, ht]⟩

/-- C10: the title sub-call is governed solely by the chat being empty:
on a chat with zero prior messages a usable generated title replaces the
current title — no hypothesis on the current title appears, so this holds
for custom titles too — and on a nonempty chat the title never changes and
`title_generated` is false. -/
theorem title_update_on_first_message (db : Db) (chat : Chat)
    (content : String) (provider : List GroqMessage → Option String)
    (titleProvider : String → Option String)
    (db' : Db) (um am : Message) (tg : Bool)
    (h : create_message_and_respond db chat content provider titleProvider
      = (db', .ok (um, am, tg))) :
    ((chatMessagesAsc db chat.id).length = 0 →
      (generate_chat_title (titleProvider content) ≠ "" ∧
          generate_chat_title (titleProvider content) ≠ "New Chat" →
        tg = true ∧ ∀ c ∈ db'.chats, c.id = chat.id →
          c.title = generate_chat_title (titleProvider content)) ∧
      (¬(generate_chat_title (titleProvider content) ≠ "" ∧
          generate_chat_title (titleProvider content) ≠ "New Chat") →
        tg = false ∧ ∀ c ∈ db'.chats, c.id = chat.id →
          c.title = chat.title)) ∧
    ((chatMessagesAsc db chat.id).length ≠ 0 →
      tg = false ∧ ∀ c ∈ db'.chats, c.id = chat.id →
        c.title = chat.title) :=
  cmr_title_cases db chat content provider titleProvider db' um am tg h

def chatC : Chat := ⟨20, 1, "My Custom Title", 0, 0, 0⟩

def db4 : Db := ⟨[u1], [chatC], [], 11⟩

theorem title_update_on_first_message_witness :
    (⟨20, 1, "Great Question", 2, 0, 12⟩ : Chat).title =
      generate_chat_title (okTitleProvider "Hi") ∧
    (⟨20, 1, "Great Question", 2, 0, 12⟩ : Chat).title ≠ chatC.title := by
  have h := title_update_on_first_message db4 chatC "Hi" okProvider
    okTitleProvider
    (create_message_and_respond db4 chatC "Hi" okProvider okTitleProvider).1
    ⟨20, .user, "Hi", 11⟩ ⟨20, .assistant, "Hello!", 12⟩ true rfl
  have h2 := (h.1 rfl).1 (by decide)
  exact ⟨h2.2 ⟨20, 1, "Great Question", 2, 0, 12⟩ (by decide) rfl,
    by decide⟩

/-- C6 (amended): after the first send on a chat whose title is the
default "New Chat", either the title stays "New Chat" with
`title_generated` false, or `title_generated` is true and the stored title
is the cleaned provider completion after the 6-word and 200-character
truncations: it is always at most 200 characters, and it has at most 6
words unless it is exactly the 200-character truncation (whose appended
ellipsis can count as an extra word); when the cleaned completion itself
already fits 6 words and 200 characters, the stored title is exactly that
cleaned text, which carries no surrounding quote characters (the word
truncation can otherwise re-expose a quote from an interior word).
A failure of the title sub-call never fails the send itself: when the AI
provider returns usable text but the title completion is `none` (a raised
exception, which the source catches and turns into the default title),
the send still returns both messages successfully with `title_generated`
false. -/
theorem first_send_title_cases (db : Db) (chat : Chat) (content : String)
    (provider : List GroqMessage → Option String)
    (titleProvider : String → Option String)
    (hdefault : chat.title = "New Chat")
    (hempty : (chatMessagesAsc db chat.id).length = 0) :
    (∀ db' um am tg,
      create_message_and_respond db chat content provider titleProvider
        = (db', .ok (um, am, tg)) →
      (tg = false → ∀ c ∈ db'.chats, c.id = chat.id →
        c.title = "New Chat") ∧
      (tg = true →
        generate_chat_title (titleProvider content) ≠ "" ∧
        generate_chat_title (titleProvider content) ≠ "New Chat" ∧
        (∀ c ∈ db'.chats, c.id = chat.id →
          c.title = generate_chat_title (titleProvider content)) ∧
        (generate_chat_title (titleProvider content)).length ≤ 200 ∧
        ((pySplit (generate_chat_title (titleProvider content))).length ≤ 6
          ∨ (generate_chat_title (titleProvider content)).length = 200) ∧
        (∀ raw, titleProvider content = some raw →
          (pySplit (stripQuotes (pyStrip raw))).length ≤ 6 →
          (stripQuotes (pyStrip raw)).length ≤ 200 →
          generate_chat_title (titleProvider content) =
            stripQuotes (pyStrip raw) ∧
          noSurroundingQuote (stripQuotes (pyStrip raw)) = true))) ∧
    (∀ t, provider (buildGroqMessages content (chatMessagesAsc db chat.id))
        = some t → t ≠ "" → titleProvider content = none →
      (create_message_and_respond db chat content provider
          titleProvider).2 =
        .ok (⟨chat.id, .user, content, db.clock⟩,
          ⟨chat.id, .assistant, pyStrip t, db.clock + 1⟩, false)) := by
  refine ⟨?_, ?_⟩
  swap
  · intro t hprov ht htp
    have hgr : generate_response provider content
        (chatMessagesAsc db chat.id) = .ok (pyStrip t) := by
      unfold generate_response
      rw [hprov]
      dsimp only
      rw [if_neg ht]
    simp only [create_message_and_respond, hgr]
    rw [htp, if_pos hempty]
    simp [generate_chat_title]
  intro db' um am tg h
  have hcases := cmr_title_cases db chat content provider
    titleProvider db' um am tg h
  obtain ⟨hyes, hno⟩ := hcases.1 hempty
  constructor
  · intro hfalse
    by_cases hcond : generate_chat_title (titleProvider content) ≠ "" ∧
        generate_chat_title (titleProvider content) ≠ "New Chat"
    · obtain ⟨htg, -⟩ := hyes hcond
      rw [htg] at hfalse
      exact absurd hfalse (by simp)
    · obtain ⟨-, hall⟩ := hno hcond
      intro c hc hcid
      rw [hall c hc hcid, hdefault]
  · intro htrue
    by_cases hcond : generate_chat_title (titleProvider content) ≠ "" ∧
        generate_chat_title (titleProvider content) ≠ "New Chat"
    · obtain ⟨-, hall⟩ := hyes hcond
      refine ⟨hcond.1, hcond.2, hall, gct_length _, gct_words _, ?_⟩
      intro raw hraw h6 h200
      rw [hraw] at hcond ⊢
      have h0 : pyStrip raw ≠ "" := by
        intro hzero
        have : generate_chat_title (some raw) = "New Chat" := by
          simp [generate_chat_title, hzero]
        exact absurd this hcond.2
      exact ⟨gct_clean raw h0 h6 h200, stripQuotes_noSurroundingQuote _⟩
    · obtain ⟨htg, -⟩ := hno hcond
      rw [htg] at htrue
      exact absurd htrue (by simp)

def failTitleProvider : String → Option String := fun _ => none

theorem first_send_title_cases_witness :
    generate_chat_title (okTitleProvider "Hi") = "Great Question" ∧
    (⟨10, 1, "Great Question", 2, 0, 12⟩ : Chat).title =
      generate_chat_title (okTitleProvider "Hi") ∧
    (pySplit (generate_chat_title (okTitleProvider "Hi"))).length ≤ 6 ∧
    (create_message_and_respond db1 chat1 "Hi" okProvider
        failTitleProvider).2 =
      .ok (⟨10, .user, "Hi", 11⟩, ⟨10, .assistant, "Hello!", 12⟩, false) := by
  have h := first_send_title_cases db1 chat1 "Hi" okProvider okTitleProvider
    rfl rfl
  have h2 := (h.1
    (create_message_and_respond db1 chat1 "Hi" okProvider okTitleProvider).1
    ⟨10, .user, "Hi", 11⟩ ⟨10, .assistant, "Hello!", 12⟩ true rfl).2 rfl
  have hf := (first_send_title_cases db1 chat1 "Hi" okProvider
    failTitleProvider rfl rfl).2 "Hello!" rfl (by decide) rfl
  refine ⟨by decide, h2.2.2.1 _ (by decide) rfl, ?_, hf⟩
  rcases h2.2.2.2.2.1 with hc | hc
  · exact hc
  · exact absurd hc (by decide)

/-- A provider completion whose sixth word carries quotes: the quote strip
runs before the word truncation, so the stored title ends in a quote. -/
def quoteTitleProvider : String → Option String :=
  fun _ => some "a b c d e \"f\" g"

/-- A completion that is 6 words padded to more than 200 characters with
interior blanks guarded by quotes: the 197-character cut plus "..."
produces a seventh word. -/
def longTitleProvider : String → Option String :=
  fun _ => some ("'a b c d e f" ++ String.mk (List.replicate 195 ' ') ++ "'")

set_option maxRecDepth 4000 in
/-- C6 counterexample: on the first send of a default-titled chat,
`title_generated` is true but the stored title "a b c d e \"f\"" ends with
a surrounding quote character; and a second completion yields a stored
title of 7 words.  Both contradict clause (b) of the claim. -/
theorem first_send_title_violations :
    (create_message_and_respond db1 chat1 "Hi" okProvider
        quoteTitleProvider).2 =
      .ok (⟨10, .user, "Hi", 11⟩, ⟨10, .assistant, "Hello!", 12⟩, true) ∧
    (create_message_and_respond db1 chat1 "Hi" okProvider
        quoteTitleProvider).1.chats =
      [⟨10, 1, "a b c d e \"f\"", 2, 0, 12⟩] ∧
    noSurroundingQuote "a b c d e \"f\"" = false ∧
    (pySplit (generate_chat_title (longTitleProvider "Hi"))).length = 7 :=
  ⟨rfl, rfl, by decide, rfl⟩

/-- C8: for any page size in [1,100], concatenating the pages of
`list_messages` in increasing page order reproduces the chat's full
message sequence, which is sorted by ascending creation time and is a
permutation of the persisted rows; likewise the pages of `list_chats`
reproduce the user's full chat list sorted most-recently-updated first. -/
theorem pagination_concat (db : Db) (user : User) (chat : Chat)
    (page_size : Nat) (h1 : 1 ≤ page_size) (h2 : page_size ≤ 100) :
    ((List.range (totalPagesOf
        (db.messages.filter (fun m => m.chat_id = chat.id)).length
        page_size)).map (fun i =>
          (get_chat_messages db chat (i + 1) page_size).1)).flatten =
      chatMessagesAsc db chat.id ∧
    (chatMessagesAsc db chat.id).Pairwise
      (fun a b => a.created_at ≤ b.created_at) ∧
    List.Perm (chatMessagesAsc db chat.id)
      (db.messages.filter (fun m => m.chat_id = chat.id)) ∧
    ((List.range (totalPagesOf
        (db.chats.filter (fun c => c.user_id = user.id)).length
        page_size)).map (fun i =>
          (get_user_chats db user (i + 1) page_size).1)).flatten =
      userChatsDesc db user.id ∧
    (userChatsDesc db user.id).Pairwise
      (fun a b => b.updated_at ≤ a.updated_at) ∧
    List.Perm (userChatsDesc db user.id)
      (db.chats.filter (fun c => c.user_id = user.id)) := by
  have hmlen : (chatMessagesAsc db chat.id).length =
      (db.messages.filter (fun m => m.chat_id = chat.id)).length :=
    (sortLe_perm _ _).length_eq
  have hclen : (userChatsDesc db user.id).length =
      (db.chats.filter (fun c => c.user_id = user.id)).length :=
    (sortLe_perm _ _).length_eq
  refine ⟨?_, ?_, sortLe_perm _ _, ?_, ?_, sortLe_perm _ _⟩
  · have hfun : (fun i => (get_chat_messages db chat (i + 1) page_size).1)
        = fun i =>
          paginate (chatMessagesAsc db chat.id) (i + 1) page_size := rfl
    rw [hfun]
    refine flatten_paginate _ _ _ ?_
    rw [hmlen]
    exact le_totalPages_mul _ _ h1
  · unfold chatMessagesAsc
    exact sortLe_pairwise
      (fun a b : Message => a.created_at ≤ b.created_at)
      (fun a b => Nat.le_total _ _)
      (fun a b c hab hbc => Nat.le_trans hab hbc) _
  · have hfun : (fun i => (get_user_chats db user (i + 1) page_size).1)
        = fun i =>
          paginate (userChatsDesc db user.id) (i + 1) page_size := rfl
    rw [hfun]
    refine flatten_paginate _ _ _ ?_
    rw [hclen]
    exact le_totalPages_mul _ _ h1
  · unfold userChatsDesc
    exact sortLe_pairwise
      (fun a b : Chat => b.updated_at ≤ a.updated_at)
      (fun a b => Nat.le_total _ _)
      (fun a b c hab hbc => Nat.le_trans hbc hab) _

theorem pagination_concat_witness :
    ((List.range (totalPagesOf 1 20)).map (fun i =>
      (get_chat_messages db3 chat1 (i + 1) 20).1)).flatten =
      chatMessagesAsc db3 10 ∧
    List.Perm (userChatsDesc db3 1)
      (db3.chats.filter (fun c => c.user_id = 1)) := by
  have h := pagination_concat db3 u1 chat1 20 (by decide) (by decide)
  exact ⟨h.1, h.2.2.2.2.2⟩

end NupatAI
